import Mathlib

/-!
Verification of the shape2seq batch-parsing and caption-scoring core
(`shape2seq/batch_parser.py`, `test_simple_network.py`).

The Python source is shallowly embedded: token rows become `List String`,
token-id sequences become `List Nat`, Python's raised exceptions become
`Except String`, and the external parsing libraries (ACE, DMRS analyzer,
ShapeWorld agreement) are abstracted as function parameters over opaque
candidate types, mirroring exactly the call contracts the code relies on.
-/

namespace Shape2Seq

/-! ### Vocabulary constants (batch_parser.py, module level) -/

def SHAPES : List String :=
  ["circle", "cross", "ellipse", "pentagon", "rectangle", "semicircle", "square", "triangle"]

def SHAPES_HYPERNYMS : List String := ["shape"]

def COLORS : List String := ["blue", "cyan", "gray", "green", "magenta", "red", "yellow"]

def AUX_VOCAB : List String := ["[UNKNOWN]", "<S>", "</S>"]

def SHAPE_COLOR_VOCAB : List String :=
  AUX_VOCAB ++ ["blue", "circle", "cross", "cyan", "ellipse", "gray", "green", "magenta",
    "pentagon", "rectangle", "red", "semicircle", "square", "triangle", "yellow"]

def SHAPE_VOCAB : List String :=
  AUX_VOCAB ++ ["circle", "cross", "ellipse", "pentagon", "rectangle", "semicircle", "square", "triangle"]

def COLOR_VOCAB : List String :=
  AUX_VOCAB ++ ["blue", "cyan", "gray", "green", "magenta", "red", "yellow"]

def STANDARD_VOCAB : List String :=
  AUX_VOCAB ++ [".", "a", "blue", "circle", "cross", "cyan", "ellipse", "gray", "green", "is",
    "magenta", "pentagon", "rectangle", "red", "semicircle", "shape", "square", "there",
    "triangle", "yellow"]

def SIMPLE_TGT_VOCAB_ : List (String × List String) :=
  [("shape", SHAPE_VOCAB), ("color", COLOR_VOCAB),
   ("shape_color", SHAPE_COLOR_VOCAB), ("standard", STANDARD_VOCAB)]

/-! ### SimpleBatchParser construction (batch_parser.py lines 49-64)

`__init__` first evaluates `SIMPLE_TGT_VOCAB_[batch_type]` (a `KeyError` for an
unknown mode), then asserts `batch_type` is one of the four valid modes.
Either failure aborts construction; a Python exception is an `Except.error`. -/

structure SimpleBatchParser where
  tgt_vocab : List (String × Nat)
  batch_type : String
  token_filter : List String

def simpleBatchParserInit (batch_type : String) : Except String SimpleBatchParser :=
  match SIMPLE_TGT_VOCAB_.lookup batch_type with
  | none => Except.error "KeyError"
  | some vocab =>
    if batch_type ∈ ["shape", "color", "shape_color", "standard"] then
      Except.ok ⟨vocab.enum.map (fun p => (p.2, p.1)), batch_type, AUX_VOCAB⟩
    else
      Except.error "Must specify a valid batch parser type"

/-! ### SimpleBatchParser crop functions (batch_parser.py lines 66-89)

`self.vocab_map.lookup`, `self.sos_token_id` and `self.eos_token_id` live in the
external `ParserBase`; they are passed as parameters. Python's `row[3]`,
`row[4]` index a fixed-width string tensor row, embedded as `List.getD`; the
template precondition of the claims guarantees the index is in range.
`row[:-1]` is `List.dropLast`. -/

def crop_color (lookup : String → Nat) (sos eos : Nat) (row : List String) : List Nat :=
  [sos] ++ [lookup (row.getD 3 "")] ++ [eos]

def crop_shape (lookup : String → Nat) (sos eos : Nat) (row : List String) : List Nat :=
  [sos] ++ [lookup (row.getD 4 "")] ++ [eos]

def crop_shape_color (lookup : String → Nat) (sos eos : Nat) (row : List String) : List Nat :=
  [sos] ++ [lookup (row.getD 3 "")] ++ [lookup (row.getD 4 "")] ++ [eos]

def crop_standard_simple (lookup : String → Nat) (sos eos : Nat) (row : List String) : List Nat :=
  [sos] ++ row.dropLast.map lookup ++ [eos]

/-! ### FullSequenceBatchParser.crop_standard (batch_parser.py lines 150-158)

`row[:batch['caption_length']]` and `row[batch['caption_length']:]` are Python
slices, i.e. `List.take` / `List.drop`; the second slice is mapped to the
constant `pad_token_id`. The constructor's `max_seq_len` parameter defaults to
16 and is never consulted by `crop_standard`. -/

def fullDefaultMaxSeqLen : Nat := 16

def crop_standard_full (lookup : String → Nat) (sos eos pad : Nat)
    (row : List String) (caption_length : Nat) : List Nat :=
  [sos] ++ (row.take caption_length).map lookup ++ [eos]
    ++ (row.drop caption_length).map (fun _ => pad)

/-! ### World models and caption scoring (batch_parser.py lines 180-218) -/

structure Attr where
  name : String

structure Entity where
  shape : Attr
  color : Attr

structure WorldModel where
  entities : List Entity

def defaultEntity : Entity := ⟨⟨""⟩, ⟨""⟩⟩

def refColor (wm : WorldModel) : String := ((wm.entities.getD 0 defaultEntity).color).name

def refShape (wm : WorldModel) : String := ((wm.entities.getD 0 defaultEntity).shape).name

/-- `set([rev_vocab[w] for w in idxs if rev_vocab[w] in SHAPES])`: the Python
set is embedded as a deduplicated filtered list; the scorer only consults
membership and (non)emptiness, which `dedup` preserves. -/
def inf_shapes (rv : Nat → String) (idxs : List Nat) : List String :=
  ((idxs.map rv).filter (fun s => decide (s ∈ SHAPES))).dedup

def inf_colors (rv : Nat → String) (idxs : List Nat) : List String :=
  ((idxs.map rv).filter (fun s => decide (s ∈ COLORS))).dedup

def inf_hyper (rv : Nat → String) (idxs : List Nat) : List String :=
  ((idxs.map rv).filter (fun s => decide (s ∈ SHAPES_HYPERNYMS))).dedup

def inf_cap_str (rv : Nat → String) (pad_token_id : Nat) (idxs : List Nat) : String :=
  String.intercalate " " ((idxs.filter (fun w => decide (w ≠ pad_token_id))).map rv)

structure CaptionScore where
  world_model : WorldModel
  inf_cap : String
  ref_shape : String
  ref_color : String
  shape_correct : Nat
  color_correct : Nat
  specify_true : Nat
  no_color_specify_shape_true : Nat
  specify_color_hypernym_shape_true : Nat
  no_color_hypernym_shape_true : Nat
  false_ : Nat

def score_cap_against_world_oneshape (rv : Nat → String) (pad_token_id : Nat)
    (wm : WorldModel) (idxs : List Nat) : CaptionScore :=
  let rc := refColor wm
  let rs := refShape wm
  let shapes := inf_shapes rv idxs
  let colors := inf_colors rv idxs
  let hyper := inf_hyper rv idxs
  let cap := inf_cap_str rv pad_token_id idxs
  if rc ∈ colors ∧ rs ∈ shapes then
    ⟨wm, cap, rs, rc, 1, 1, 1, 0, 0, 0, 0⟩
  else if rs ∈ shapes ∧ colors = [] then
    ⟨wm, cap, rs, rc, 1, 0, 0, 1, 0, 0, 0⟩
  else if rc ∈ colors ∧ hyper ≠ [] ∧ shapes = [] then
    ⟨wm, cap, rs, rc, 0, 1, 0, 0, 1, 0, 0⟩
  else if hyper ≠ [] ∧ colors = [] ∧ shapes = [] then
    ⟨wm, cap, rs, rc, 0, 0, 0, 0, 0, 1, 0⟩
  else
    ⟨wm, cap, rs, rc, 0, 0, 0, 0, 0, 0, 1⟩

/-! ### ParserBase.split_seqs

`split_seqs` is defined in `src.parser_base.ParserBase`, which is not part of
this repository snapshot; only its caller is. -/

/-- Modelled from the spec: `ParserBase.split_seqs` (the SequenceSplitter of
section 4.3) is missing from the snapshot. Per the spec, from a complete
bounded/padded sequence of width W it returns `complete`, `input` (complete
minus last element), `target` (complete minus first element), a 0/1 `mask`
over input positions (1 inside the true unpadded span), and `length` = count
of ids before the first PAD (or W if no PAD) minus one for the
teacher-forcing shift. -/
def split_seqs (pad : Nat) (complete : List Nat) :
    List Nat × List Nat × List Nat × List Nat × Nat :=
  let trueLen := (complete.takeWhile (fun x => decide (x ≠ pad))).length
  let len := trueLen - 1
  let inputSeq := complete.dropLast
  let targetSeq := complete.drop 1
  let mask := (List.range inputSeq.length).map (fun i => if i < len then 1 else 0)
  (complete, inputSeq, targetSeq, mask, len)

/-! ### Semantic-parse evaluation (batch_parser.py lines 231-276)

The external calls are parameters: `parseRes` is the outcome of
`next(Ace_.parse(sentence_list=[caption]))` (a raised fault or a list of MRS
candidates), `convert` is `mrs.convert_to(cls=Dmrs, copy_nodes=True)` (a raised
fault, a falsy result `none`, or a truthy graph `some g`), `analyze` is
`Analyzer_.analyze`, and `agreement` folds the stage-4 predication/scoring
calls into one fallible score. The `cap` field of the returned record holds the
caption string on the first three outcomes but is rebound to `analyses[0]`
before the agreement outcomes, hence the sum type. -/

structure ParseScore (L : Type) where
  cap : Sum String L
  agreement : Nat
  false_ : Nat
  out_of_scope : Nat
  ungrammatical : Nat

inductive ConvResult (G : Type) where
  | raised
  | found (g : G)
  | exhausted

def convLoop {M G : Type} (convert : M → Except String (Option G)) :
    List M → ConvResult G
  | [] => ConvResult.exhausted
  | m :: rest =>
    match convert m with
    | Except.error _ => ConvResult.raised
    | Except.ok (some g) => ConvResult.found g
    | Except.ok none => convLoop convert rest

def semparse_evaluate {M G L : Type} (parseRes : Except String (List M))
    (convert : M → Except String (Option G)) (analyze : G → Except String (List L))
    (agreement : L → Except String Rat) (caption : String) :
    Except String (ParseScore L) :=
  match parseRes with
  | Except.error e => Except.error e
  | Except.ok mrsIter =>
    if mrsIter.isEmpty then Except.ok ⟨Sum.inl caption, 0, 0, 0, 1⟩
    else
      match convLoop convert mrsIter with
      | ConvResult.raised => Except.ok ⟨Sum.inl caption, 0, 0, 1, 0⟩
      | ConvResult.exhausted => Except.ok ⟨Sum.inl caption, 0, 0, 1, 0⟩
      | ConvResult.found g =>
        match analyze g with
        | Except.error e => Except.error e
        | Except.ok [] => Except.ok ⟨Sum.inl caption, 0, 0, 1, 0⟩
        | Except.ok (lf :: _) =>
          match agreement lf with
          | Except.error e => Except.error e
          | Except.ok score =>
            if score = 1 then Except.ok ⟨Sum.inr lf, 1, 0, 0, 0⟩
            else Except.ok ⟨Sum.inr lf, 0, 1, 0, 0⟩

/-! ### Test-driver token filter (test_simple_network.py lines 136-143)

`ref_cap = set([tok for tok in ref_cap if int(tok) not in parser.token_filter])`
tests integer ids for membership in `AUX_VOCAB`, a list of strings. Python's
`in` uses `==`, and `int == str` is `False`, so the test never excludes
anything. Python values of the two types involved are embedded explicitly. -/

inductive PyVal where
  | int (n : Int)
  | str (s : String)

def pyEq : PyVal → PyVal → Bool
  | PyVal.int a, PyVal.int b => a == b
  | PyVal.str a, PyVal.str b => a == b
  | _, _ => false

def pyNotIn (x : PyVal) (l : List PyVal) : Bool := !(l.any (fun y => pyEq x y))

def tokenFilterVals : List PyVal := AUX_VOCAB.map PyVal.str

/-! ### Demo data used by the witnesses and counterexamples -/

def rowDemo : List String := ["there", "is", "a", "red", "square", "."]

/-- A reverse vocabulary for concrete scoring instances. -/
def rvDemo : Nat → String
  | 0 => "a"
  | 1 => "blue"
  | 2 => "square"
  | 3 => "is"
  | 4 => "shape"
  | 5 => "yellow"
  | _ => ""

def wmYellowSquare : WorldModel := ⟨[⟨⟨"square"⟩, ⟨"yellow"⟩⟩]⟩

def wmGreenSquare : WorldModel := ⟨[⟨⟨"square"⟩, ⟨"green"⟩⟩]⟩

/-! ### Helper lemmas -/

theorem takeWhile_len_le (p : Nat → Bool) (l : List Nat) :
    (l.takeWhile p).length ≤ l.length := by
  induction l with
  | nil => simp
  | cons a t ih =>
    by_cases hp : p a
    · simp only [List.takeWhile_cons, hp, if_true, List.length_cons]
      omega
    · simp [List.takeWhile_cons, hp]

theorem indicator_range_sum (k : Nat) :
    ∀ n : Nat, ((List.range n).map (fun i => if i < k then 1 else 0)).sum = min k n := by
  intro n
  induction n with
  | zero => simp
  | succ m ih =>
    rw [List.range_succ, List.map_append, List.sum_append, ih]
    by_cases hm : m < k <;> simp [hm] <;> omega

/-! ### Theorems for the claims -/

/-- Claim C10: in the test driver's accuracy computation the token filter never
removes any token: for every integer token id, `int(tok) not in
parser.token_filter` is true because the filter holds the auxiliary token
strings, so the filtered reference and inferred caption id collections retain
every id, the START and END marker ids included. -/
theorem C10_token_filter_is_vacuous :
    (∀ tok : Int, pyNotIn (PyVal.int tok) tokenFilterVals = true) ∧
    (∀ caps : List Int, caps.filter (fun t => pyNotIn (PyVal.int t) tokenFilterVals) = caps) := by
  constructor
  · intro tok
    rfl
  · intro caps
    apply List.filter_eq_self.mpr
    intro a _
    rfl

/-- Claim C8: constructing a SimpleBatchParser succeeds exactly for the four
valid batch types; an invalid batch_type makes the vocabulary-dictionary
lookup fail during construction, before any per-item processing, and a valid
batch_type is stored as the component's fixed mode. -/
theorem C8_init_valid_modes (bt : String) :
    ((simpleBatchParserInit bt).isOk = true ↔
      bt ∈ ["shape", "color", "shape_color", "standard"]) ∧
    (∀ p, simpleBatchParserInit bt = Except.ok p → p.batch_type = bt) := by
  constructor
  · constructor
    · intro h
      by_contra hmem
      have h1 : (bt == "shape") = false := by
        simp only [beq_eq_false_iff_ne]; intro he; exact hmem (by simp [he])
      have h2 : (bt == "color") = false := by
        simp only [beq_eq_false_iff_ne]; intro he; exact hmem (by simp [he])
      have h3 : (bt == "shape_color") = false := by
        simp only [beq_eq_false_iff_ne]; intro he; exact hmem (by simp [he])
      have h4 : (bt == "standard") = false := by
        simp only [beq_eq_false_iff_ne]; intro he; exact hmem (by simp [he])
      have hl : SIMPLE_TGT_VOCAB_.lookup bt = none := by
        simp [SIMPLE_TGT_VOCAB_, List.lookup, h1, h2, h3, h4]
      simp only [simpleBatchParserInit, hl] at h
      exact absurd h (by decide)
    · intro h
      simp only [List.mem_cons, List.not_mem_nil, or_false] at h
      rcases h with h | h | h | h <;> subst h <;> decide
  · intro p hp
    cases hl : SIMPLE_TGT_VOCAB_.lookup bt with
    | none =>
      simp only [simpleBatchParserInit, hl] at hp
      exact Except.noConfusion hp
    | some vocab =>
      simp only [simpleBatchParserInit, hl] at hp
      by_cases hm : bt ∈ ["shape", "color", "shape_color", "standard"]
      · rw [if_pos hm] at hp
        injection hp with hp'
        subst hp'
        rfl
      · rw [if_neg hm] at hp
        exact absurd hp (by simp)

/-- Claim C8 witness: the valid mode "shape" constructs successfully and fixes
that mode. -/
theorem C8_init_valid_modes_witness :
    (simpleBatchParserInit "shape").isOk = true := by
  exact (C8_init_valid_modes "shape").1.mpr (by decide)

/-- Claim C5: for a template-conforming row (color token at offset 3, shape
token at offset 4, terminal punctuation last), the SimpleBatchParser crops
produce: shape mode [START, shape id, END]; color mode [START, color id, END];
shape_color mode [START, color id, shape id, END] with color before shape;
standard mode [START] ++ ids of all tokens but the final one ++ [END]; every
output begins with the START id and ends with the END id. -/
theorem C5_simple_crops (lookup : String → Nat) (sos eos : Nat) (row : List String)
    (h : 5 ≤ row.length) :
    crop_shape lookup sos eos row = [sos, lookup (row.get ⟨4, by omega⟩), eos] ∧
    crop_color lookup sos eos row = [sos, lookup (row.get ⟨3, by omega⟩), eos] ∧
    crop_shape_color lookup sos eos row =
      [sos, lookup (row.get ⟨3, by omega⟩), lookup (row.get ⟨4, by omega⟩), eos] ∧
    crop_standard_simple lookup sos eos row = [sos] ++ row.dropLast.map lookup ++ [eos] ∧
    (crop_shape lookup sos eos row).head? = some sos ∧
    (crop_color lookup sos eos row).head? = some sos ∧
    (crop_shape_color lookup sos eos row).head? = some sos ∧
    (crop_standard_simple lookup sos eos row).head? = some sos ∧
    (crop_shape lookup sos eos row).getLast? = some eos ∧
    (crop_color lookup sos eos row).getLast? = some eos ∧
    (crop_shape_color lookup sos eos row).getLast? = some eos ∧
    (crop_standard_simple lookup sos eos row).getLast? = some eos := by
  have h3 : (3 : Nat) < row.length := by omega
  have h4 : (4 : Nat) < row.length := by omega
  have g3 : row.getD 3 "" = row.get ⟨3, by omega⟩ := by
    rw [List.getD_eq_getElem row "" h3]; rfl
  have g4 : row.getD 4 "" = row.get ⟨4, by omega⟩ := by
    rw [List.getD_eq_getElem row "" h4]; rfl
  refine ⟨?_, ?_, ?_, rfl, rfl, rfl, rfl, rfl, rfl, rfl, rfl, ?_⟩
  · unfold crop_shape
    rw [g4]
    rfl
  · unfold crop_color
    rw [g3]
    rfl
  · unfold crop_shape_color
    rw [g3, g4]
    rfl
  · unfold crop_standard_simple
    exact List.getLast?_concat _

/-- Claim C5 witness: the crops evaluated on the template row
"there is a red square ." with token-length as the lookup. -/
theorem C5_simple_crops_witness :
    crop_shape String.length 20 21 rowDemo = [20, 6, 21] ∧
    crop_color String.length 20 21 rowDemo = [20, 3, 21] ∧
    crop_shape_color String.length 20 21 rowDemo = [20, 3, 6, 21] := by
  have h := C5_simple_crops String.length 20 21 rowDemo (by decide)
  exact ⟨h.1.trans (by decide), h.2.1.trans (by decide), h.2.2.1.trans (by decide)⟩

/-- Claim C6 counterexample: with the constructor's default max_seq_len = 16, a
width-3 row of true length 2 crops to an output of length 5, so the output
length is not the fixed max_seq_len. -/
theorem C6_full_crop_counterexample :
    (crop_standard_full String.length 90 91 92 ["a", "b", "c"] 2).length ≠
      fullDefaultMaxSeqLen := by
  decide

/-- Claim C6 (amended): FullSequenceBatchParser.crop_standard produces
[START id] ++ ids of the first L tokens ++ [END id] ++ PAD for every remaining
row position; the output begins with the START id, the END id sits at position
L+1 immediately before the trailing PAD ids, and the total output length is
the row width plus 2 (not max_seq_len, which the crop never consults). -/
theorem C6_full_crop (lookup : String → Nat) (sos eos pad : Nat) (row : List String)
    (capLen : Nat) (h : capLen ≤ row.length) :
    crop_standard_full lookup sos eos pad row capLen =
      [sos] ++ (row.take capLen).map lookup ++ [eos]
        ++ List.replicate (row.length - capLen) pad ∧
    (crop_standard_full lookup sos eos pad row capLen).head? = some sos ∧
    (crop_standard_full lookup sos eos pad row capLen).getD (capLen + 1) 0 = eos ∧
    (∀ j, capLen + 2 ≤ j → j < row.length + 2 →
      (crop_standard_full lookup sos eos pad row capLen).getD j 0 = pad) ∧
    (crop_standard_full lookup sos eos pad row capLen).length = row.length + 2 := by
  have hrepl : (row.drop capLen).map (fun _ => pad) =
      List.replicate (row.length - capLen) pad := by
    rw [List.map_const', List.length_drop]
  have htk : ((row.take capLen).map lookup).length = capLen := by
    rw [List.length_map, List.length_take]
    omega
  have heq : crop_standard_full lookup sos eos pad row capLen =
      [sos] ++ (row.take capLen).map lookup ++ [eos]
        ++ List.replicate (row.length - capLen) pad := by
    unfold crop_standard_full
    rw [hrepl]
  have hl1 : ([sos] ++ (row.take capLen).map lookup).length = capLen + 1 := by
    simp
    omega
  have hl2 : ([sos] ++ (row.take capLen).map lookup ++ [eos]).length = capLen + 2 := by
    simp
    omega
  refine ⟨heq, ?_, ?_, ?_, ?_⟩
  · rw [heq]; rfl
  · rw [heq]
    rw [List.append_assoc ([sos] ++ (row.take capLen).map lookup) [eos]
      (List.replicate (row.length - capLen) pad)]
    rw [List.getD_append_right ([sos] ++ (row.take capLen).map lookup)
      ([eos] ++ List.replicate (row.length - capLen) pad) 0 (capLen + 1) hl1.le]
    rw [hl1]
    simp
  · intro j hj1 hj2
    rw [heq]
    rw [List.getD_append_right ([sos] ++ (row.take capLen).map lookup ++ [eos])
      (List.replicate (row.length - capLen) pad) 0 j (by rw [hl2]; exact hj1)]
    rw [hl2]
    have hlt : j - (capLen + 2) < row.length - capLen := by omega
    rw [List.getD_eq_getElem _ _ (by simpa using hlt)]
    simp
  · rw [heq]
    simp
    omega

/-- Claim C6 witness: row ["a", "bb", "c"] with true length 2 crops to
[START, 1, 2, END, PAD] of length 5 = row width + 2. -/
theorem C6_full_crop_witness :
    (crop_standard_full String.length 7 8 9 ["a", "bb", "c"] 2).length =
      (["a", "bb", "c"] : List String).length + 2 := by
  exact (C6_full_crop String.length 7 8 9 ["a", "bb", "c"] 2 (by decide)).2.2.2.2

/-- Claim C7: the splitting step yields input, target and mask one shorter
than the complete sequence, with input[i] = complete[i], target[i] =
complete[i+1] for every valid index, and the mask summing to the reported
length. -/
theorem C7_split_invariants (pad : Nat) (complete : List Nat) :
    (split_seqs pad complete).2.1.length = complete.length - 1 ∧
    (split_seqs pad complete).2.2.1.length = complete.length - 1 ∧
    (split_seqs pad complete).2.2.2.1.length = complete.length - 1 ∧
    (∀ i, i < complete.length - 1 →
      (split_seqs pad complete).2.1.getD i 0 = complete.getD i 0 ∧
      (split_seqs pad complete).2.2.1.getD i 0 = complete.getD (i + 1) 0) ∧
    (split_seqs pad complete).2.2.2.1.sum = (split_seqs pad complete).2.2.2.2 := by
  simp only [split_seqs]
  refine ⟨by simp, by simp, by simp, ?_, ?_⟩
  · intro i hi
    have hi' : i < complete.dropLast.length := by
      rw [List.length_dropLast]; omega
    have hi'' : i < complete.length := by omega
    have hi2 : i + 1 < complete.length := by omega
    have hd : i < (complete.drop 1).length := by
      rw [List.length_drop]; omega
    constructor
    · rw [List.getD_eq_getElem _ _ hi', List.getD_eq_getElem _ _ hi'']
      exact List.getElem_dropLast complete i hi'
    · rw [List.getD_eq_getElem _ _ hd, List.getD_eq_getElem _ _ hi2]
      rw [List.getElem_drop]
      congr 1
      omega
  · rw [indicator_range_sum]
    have hw := takeWhile_len_le (fun x => decide (x ≠ pad)) complete
    rw [List.length_dropLast]
    omega

/-- Claim C7 witness: splitting [5, 6, 7, 0, 0] with PAD id 0; the true span
has length 3 so the reported length is 2 and the mask sums to 2. -/
theorem C7_split_invariants_witness :
    (split_seqs 0 [5, 6, 7, 0, 0]).2.1.getD 1 0 = ([5, 6, 7, 0, 0] : List Nat).getD 1 0 ∧
    (split_seqs 0 [5, 6, 7, 0, 0]).2.2.2.1.sum = (split_seqs 0 [5, 6, 7, 0, 0]).2.2.2.2 := by
  refine ⟨((C7_split_invariants 0 [5, 6, 7, 0, 0]).2.2.2.1 1 (by decide)).1,
    (C7_split_invariants 0 [5, 6, 7, 0, 0]).2.2.2.2⟩

/-- Claim C1: for every world model with a first entity and every inferred
token-id list, exactly one of the five outcome indicators of the caption
scorer equals 1, chosen as the first matching row of the section 4.4 decision
table evaluated top-down (row 1: ref_color ∈ colors_seen and ref_shape ∈
shapes_seen; row 2: ref_shape ∈ shapes_seen and colors_seen empty; row 3:
ref_color ∈ colors_seen, hypernym seen, shapes_seen empty; row 4: hypernym
seen, colors_seen and shapes_seen empty; otherwise false); in particular an
empty inferred token list yields false = 1. -/
theorem C1_decision_table (rv : Nat → String) (pad : Nat) (wm : WorldModel)
    (idxs : List Nat) (h : wm.entities ≠ []) :
    ((score_cap_against_world_oneshape rv pad wm idxs).specify_true +
      (score_cap_against_world_oneshape rv pad wm idxs).no_color_specify_shape_true +
      (score_cap_against_world_oneshape rv pad wm idxs).specify_color_hypernym_shape_true +
      (score_cap_against_world_oneshape rv pad wm idxs).no_color_hypernym_shape_true +
      (score_cap_against_world_oneshape rv pad wm idxs).false_ = 1) ∧
    ((score_cap_against_world_oneshape rv pad wm idxs).specify_true = 1 ↔
      (refColor wm ∈ inf_colors rv idxs ∧ refShape wm ∈ inf_shapes rv idxs)) ∧
    ((score_cap_against_world_oneshape rv pad wm idxs).no_color_specify_shape_true = 1 ↔
      (¬(refColor wm ∈ inf_colors rv idxs ∧ refShape wm ∈ inf_shapes rv idxs) ∧
       (refShape wm ∈ inf_shapes rv idxs ∧ inf_colors rv idxs = []))) ∧
    ((score_cap_against_world_oneshape rv pad wm idxs).specify_color_hypernym_shape_true = 1 ↔
      (¬(refColor wm ∈ inf_colors rv idxs ∧ refShape wm ∈ inf_shapes rv idxs) ∧
       ¬(refShape wm ∈ inf_shapes rv idxs ∧ inf_colors rv idxs = []) ∧
       (refColor wm ∈ inf_colors rv idxs ∧ inf_hyper rv idxs ≠ [] ∧ inf_shapes rv idxs = []))) ∧
    ((score_cap_against_world_oneshape rv pad wm idxs).no_color_hypernym_shape_true = 1 ↔
      (¬(refColor wm ∈ inf_colors rv idxs ∧ refShape wm ∈ inf_shapes rv idxs) ∧
       ¬(refShape wm ∈ inf_shapes rv idxs ∧ inf_colors rv idxs = []) ∧
       ¬(refColor wm ∈ inf_colors rv idxs ∧ inf_hyper rv idxs ≠ [] ∧ inf_shapes rv idxs = []) ∧
       (inf_hyper rv idxs ≠ [] ∧ inf_colors rv idxs = [] ∧ inf_shapes rv idxs = []))) ∧
    ((score_cap_against_world_oneshape rv pad wm idxs).false_ = 1 ↔
      (¬(refColor wm ∈ inf_colors rv idxs ∧ refShape wm ∈ inf_shapes rv idxs) ∧
       ¬(refShape wm ∈ inf_shapes rv idxs ∧ inf_colors rv idxs = []) ∧
       ¬(refColor wm ∈ inf_colors rv idxs ∧ inf_hyper rv idxs ≠ [] ∧ inf_shapes rv idxs = []) ∧
       ¬(inf_hyper rv idxs ≠ [] ∧ inf_colors rv idxs = [] ∧ inf_shapes rv idxs = []))) ∧
    (idxs = [] → (score_cap_against_world_oneshape rv pad wm idxs).false_ = 1) := by
  simp only [score_cap_against_world_oneshape]
  split_ifs with h1 h2 h3 h4
  · refine ⟨by norm_num, by simp [h1], by simp [h1], by simp [h1], by simp [h1],
      by simp [h1], ?_⟩
    intro he
    subst he
    simp [inf_colors, inf_shapes] at h1
  · refine ⟨by norm_num, by simp [h1], by simp [h1, h2], by simp [h2], by simp [h2],
      by simp [h2], ?_⟩
    intro he
    subst he
    simp [inf_shapes] at h2
  · refine ⟨by norm_num, by simp [h1], by simp [h2], by simp [h1, h2, h3], by simp [h3],
      by simp [h3], ?_⟩
    intro he
    subst he
    simp [inf_colors] at h3
  · refine ⟨by norm_num, by simp [h1], by simp [h2], by simp [h3], by simp [h1, h2, h3, h4],
      by simp [h4], ?_⟩
    intro he
    subst he
    simp [inf_hyper] at h4
  · refine ⟨by norm_num, by simp [h1], by simp [h2], by simp [h3], by simp [h4],
      by simp [h1, h2, h3, h4], ?_⟩
    intro _
    simp

/-- Claim C1 witness: the empty inferred sequence against a green-square world
is classified false = 1. -/
theorem C1_decision_table_witness :
    (score_cap_against_world_oneshape rvDemo 99 wmGreenSquare []).false_ = 1 := by
  exact (C1_decision_table rvDemo 99 wmGreenSquare []
    (by simp [wmGreenSquare])).2.2.2.2.2.2 rfl

/-- Claim C2 (code bug): on the scorer docstring's own example — reference
yellow square, inferred caption "a blue square is a shape" — the returned
record has shape_correct = 0 although ref_shape ∈ shapes_seen: the
fall-through branch hard-codes shape_correct = color_correct = 0 instead of
the claimed independent membership booleans. -/
theorem C2_shape_correct_bug :
    refShape wmYellowSquare ∈ inf_shapes rvDemo [0, 1, 2, 3, 0, 4] ∧
    (score_cap_against_world_oneshape rvDemo 99 wmYellowSquare
      [0, 1, 2, 3, 0, 4]).shape_correct = 0 ∧
    (score_cap_against_world_oneshape rvDemo 99 wmYellowSquare
      [0, 1, 2, 3, 0, 4]).false_ = 1 := by
  refine ⟨by decide, by decide, by decide⟩

/-- Claim C9: the classification depends only on the set of distinct inferred
token ids, not on their order or multiplicity: two id lists with the same
members receive identical ref_shape, ref_color, shape_correct, color_correct
and all five outcome indicators. -/
theorem C9_set_invariance (rv : Nat → String) (pad : Nat) (wm : WorldModel)
    (l1 l2 : List Nat) (h : ∀ x, x ∈ l1 ↔ x ∈ l2) :
    (score_cap_against_world_oneshape rv pad wm l1).ref_shape =
      (score_cap_against_world_oneshape rv pad wm l2).ref_shape ∧
    (score_cap_against_world_oneshape rv pad wm l1).ref_color =
      (score_cap_against_world_oneshape rv pad wm l2).ref_color ∧
    (score_cap_against_world_oneshape rv pad wm l1).shape_correct =
      (score_cap_against_world_oneshape rv pad wm l2).shape_correct ∧
    (score_cap_against_world_oneshape rv pad wm l1).color_correct =
      (score_cap_against_world_oneshape rv pad wm l2).color_correct ∧
    (score_cap_against_world_oneshape rv pad wm l1).specify_true =
      (score_cap_against_world_oneshape rv pad wm l2).specify_true ∧
    (score_cap_against_world_oneshape rv pad wm l1).no_color_specify_shape_true =
      (score_cap_against_world_oneshape rv pad wm l2).no_color_specify_shape_true ∧
    (score_cap_against_world_oneshape rv pad wm l1).specify_color_hypernym_shape_true =
      (score_cap_against_world_oneshape rv pad wm l2).specify_color_hypernym_shape_true ∧
    (score_cap_against_world_oneshape rv pad wm l1).no_color_hypernym_shape_true =
      (score_cap_against_world_oneshape rv pad wm l2).no_color_hypernym_shape_true ∧
    (score_cap_against_world_oneshape rv pad wm l1).false_ =
      (score_cap_against_world_oneshape rv pad wm l2).false_ := by
  have hmem : ∀ (voc : List String) (s : String),
      (s ∈ ((l1.map rv).filter (fun t => decide (t ∈ voc))).dedup ↔
       s ∈ ((l2.map rv).filter (fun t => decide (t ∈ voc))).dedup) := by
    intro voc s
    simp only [List.mem_dedup, List.mem_filter, List.mem_map, decide_eq_true_eq]
    constructor
    · rintro ⟨⟨x, hx, hrv⟩, hv⟩
      exact ⟨⟨x, (h x).mp hx, hrv⟩, hv⟩
    · rintro ⟨⟨x, hx, hrv⟩, hv⟩
      exact ⟨⟨x, (h x).mpr hx, hrv⟩, hv⟩
  have hempty : ∀ voc : List String,
      (((l1.map rv).filter (fun t => decide (t ∈ voc))).dedup = [] ↔
       ((l2.map rv).filter (fun t => decide (t ∈ voc))).dedup = []) := by
    intro voc
    rw [List.eq_nil_iff_forall_not_mem, List.eq_nil_iff_forall_not_mem]
    constructor
    · intro hh s hs
      exact hh s ((hmem voc s).mpr hs)
    · intro hh s hs
      exact hh s ((hmem voc s).mp hs)
  have e1 : (refColor wm ∈ inf_colors rv l1 ∧ refShape wm ∈ inf_shapes rv l1) ↔
      (refColor wm ∈ inf_colors rv l2 ∧ refShape wm ∈ inf_shapes rv l2) :=
    and_congr (hmem COLORS _) (hmem SHAPES _)
  have e2 : (refShape wm ∈ inf_shapes rv l1 ∧ inf_colors rv l1 = []) ↔
      (refShape wm ∈ inf_shapes rv l2 ∧ inf_colors rv l2 = []) :=
    and_congr (hmem SHAPES _) (hempty COLORS)
  have e3 : (refColor wm ∈ inf_colors rv l1 ∧ inf_hyper rv l1 ≠ [] ∧ inf_shapes rv l1 = []) ↔
      (refColor wm ∈ inf_colors rv l2 ∧ inf_hyper rv l2 ≠ [] ∧ inf_shapes rv l2 = []) :=
    and_congr (hmem COLORS _)
      (and_congr (not_congr (hempty SHAPES_HYPERNYMS)) (hempty SHAPES))
  have e4 : (inf_hyper rv l1 ≠ [] ∧ inf_colors rv l1 = [] ∧ inf_shapes rv l1 = []) ↔
      (inf_hyper rv l2 ≠ [] ∧ inf_colors rv l2 = [] ∧ inf_shapes rv l2 = []) :=
    and_congr (not_congr (hempty SHAPES_HYPERNYMS))
      (and_congr (hempty COLORS) (hempty SHAPES))
  simp only [score_cap_against_world_oneshape]
  by_cases c1 : refColor wm ∈ inf_colors rv l1 ∧ refShape wm ∈ inf_shapes rv l1
  · rw [if_pos c1, if_pos (e1.mp c1)]
    exact ⟨rfl, rfl, rfl, rfl, rfl, rfl, rfl, rfl, rfl⟩
  · rw [if_neg c1, if_neg (fun hc => c1 (e1.mpr hc))]
    by_cases c2 : refShape wm ∈ inf_shapes rv l1 ∧ inf_colors rv l1 = []
    · rw [if_pos c2, if_pos (e2.mp c2)]
      exact ⟨rfl, rfl, rfl, rfl, rfl, rfl, rfl, rfl, rfl⟩
    · rw [if_neg c2, if_neg (fun hc => c2 (e2.mpr hc))]
      by_cases c3 : refColor wm ∈ inf_colors rv l1 ∧ inf_hyper rv l1 ≠ [] ∧
          inf_shapes rv l1 = []
      · rw [if_pos c3, if_pos (e3.mp c3)]
        exact ⟨rfl, rfl, rfl, rfl, rfl, rfl, rfl, rfl, rfl⟩
      · rw [if_neg c3, if_neg (fun hc => c3 (e3.mpr hc))]
        by_cases c4 : inf_hyper rv l1 ≠ [] ∧ inf_colors rv l1 = [] ∧ inf_shapes rv l1 = []
        · rw [if_pos c4, if_pos (e4.mp c4)]
          exact ⟨rfl, rfl, rfl, rfl, rfl, rfl, rfl, rfl, rfl⟩
        · rw [if_neg c4, if_neg (fun hc => c4 (e4.mpr hc))]
          exact ⟨rfl, rfl, rfl, rfl, rfl, rfl, rfl, rfl, rfl⟩

/-- Claim C9 witness: [2, 2, 0] and [0, 2] hold the same id set and receive
identical outcome fields. -/
theorem C9_set_invariance_witness :
    (score_cap_against_world_oneshape rvDemo 99 wmYellowSquare
      [2, 2, 0]).no_color_specify_shape_true =
    (score_cap_against_world_oneshape rvDemo 99 wmYellowSquare
      [0, 2]).no_color_specify_shape_true := by
  have h : ∀ x : Nat, x ∈ ([2, 2, 0] : List Nat) ↔ x ∈ ([0, 2] : List Nat) := by
    intro x
    simp only [List.mem_cons, List.not_mem_nil, or_false]
    omega
  exact (C9_set_invariance rvDemo 99 wmYellowSquare [2, 2, 0] [0, 2] h).2.2.2.2.2.1

/-- Claim C3: whenever the semantic-parse evaluator returns a ParseScore,
exactly one of the four indicators is 1, determined by the pipeline: zero
candidate parses yields ungrammatical; a conversion fault on any candidate
makes the candidate loop stop immediately (regardless of the remaining
candidates) and yields out_of_scope; exhausting a non-empty candidate list
without a truthy graph yields out_of_scope; an empty analysis list yields
out_of_scope; otherwise agreement score exactly 1 yields agreement and any
other score yields the false outcome. -/
theorem C3_semparse_outcomes {M G L : Type} (parseRes : Except String (List M))
    (convert : M → Except String (Option G)) (analyze : G → Except String (List L))
    (agreement : L → Except String Rat) (caption : String) (ps : ParseScore L)
    (hps : semparse_evaluate parseRes convert analyze agreement caption = Except.ok ps) :
    (ps.agreement + ps.false_ + ps.out_of_scope + ps.ungrammatical = 1) ∧
    (parseRes = Except.ok [] → ps.ungrammatical = 1) ∧
    (∀ (m : M) (rest : List M) (e : String), convert m = Except.error e →
      convLoop convert (m :: rest) = ConvResult.raised) ∧
    (∀ l : List M, parseRes = Except.ok l → convLoop convert l = ConvResult.raised →
      ps.out_of_scope = 1) ∧
    (∀ l : List M, parseRes = Except.ok l → l ≠ [] →
      convLoop convert l = ConvResult.exhausted → ps.out_of_scope = 1) ∧
    (∀ (l : List M) (g : G), parseRes = Except.ok l → convLoop convert l = ConvResult.found g →
      analyze g = Except.ok [] → ps.out_of_scope = 1) ∧
    (∀ (l : List M) (g : G) (lf : L) (rest : List L) (q : Rat),
      parseRes = Except.ok l → convLoop convert l = ConvResult.found g →
      analyze g = Except.ok (lf :: rest) → agreement lf = Except.ok q →
      ((q = 1 → ps.agreement = 1) ∧ (q ≠ 1 → ps.false_ = 1))) := by
  cases parseRes with
  | error e => exact absurd hps (by simp [semparse_evaluate])
  | ok l0 =>
    have hloop : ∀ (m : M) (rest : List M) (e : String), convert m = Except.error e →
        convLoop convert (m :: rest) = ConvResult.raised := by
      intro m rest e hc
      simp [convLoop, hc]
    by_cases hl : l0 = []
    · subst hl
      simp only [semparse_evaluate, List.isEmpty_nil, if_true] at hps
      injection hps with hps'
      subst hps'
      refine ⟨rfl, fun _ => rfl, hloop, ?_, ?_, ?_, ?_⟩
      · intro l hpe hcl
        injection hpe with hpe'
        subst hpe'
        exact absurd hcl (by simp [convLoop])
      · intro l hpe hne _
        injection hpe with hpe'
        exact absurd hpe'.symm hne
      · intro l g hpe hcl _
        injection hpe with hpe'
        subst hpe'
        exact absurd hcl (by simp [convLoop])
      · intro l g lf rest q hpe hcl _ _
        injection hpe with hpe'
        subst hpe'
        exact absurd hcl (by simp [convLoop])
    · have hne : l0.isEmpty = false := by
        cases l0 with
        | nil => exact absurd rfl hl
        | cons a t => rfl
      simp only [semparse_evaluate, hne, Bool.false_eq_true, if_false] at hps
      cases hcv : convLoop convert l0 with
      | raised =>
        simp only [hcv] at hps
        injection hps with hps'
        subst hps'
        refine ⟨rfl, ?_, hloop, fun _ _ _ => rfl, ?_, ?_, ?_⟩
        · intro hpe
          injection hpe with hpe'
          exact absurd hpe' hl
        · intro l hpe _ hcl
          injection hpe with hpe'
          subst hpe'
          simp [hcv] at hcl
        · intro l g hpe hcl _
          injection hpe with hpe'
          subst hpe'
          simp [hcv] at hcl
        · intro l g lf rest q hpe hcl _ _
          injection hpe with hpe'
          subst hpe'
          simp [hcv] at hcl
      | exhausted =>
        simp only [hcv] at hps
        injection hps with hps'
        subst hps'
        refine ⟨rfl, ?_, hloop, ?_, fun _ _ _ _ => rfl, ?_, ?_⟩
        · intro hpe
          injection hpe with hpe'
          exact absurd hpe' hl
        · intro l hpe hcl
          injection hpe with hpe'
          subst hpe'
          simp [hcv] at hcl
        · intro l g hpe hcl _
          injection hpe with hpe'
          subst hpe'
          simp [hcv] at hcl
        · intro l g lf rest q hpe hcl _ _
          injection hpe with hpe'
          subst hpe'
          simp [hcv] at hcl
      | found g0 =>
        simp only [hcv] at hps
        cases han : analyze g0 with
        | error e =>
          simp only [han] at hps
          exact absurd hps (by simp)
        | ok lfs =>
          simp only [han] at hps
          cases lfs with
          | nil =>
            injection hps with hps'
            subst hps'
            refine ⟨rfl, ?_, hloop, ?_, ?_, fun _ _ _ _ _ => rfl, ?_⟩
            · intro hpe
              injection hpe with hpe'
              exact absurd hpe' hl
            · intro l hpe hcl
              injection hpe with hpe'
              subst hpe'
              simp [hcv] at hcl
            · intro l hpe _ hcl
              injection hpe with hpe'
              subst hpe'
              simp [hcv] at hcl
            · intro l g lf rest q hpe hcl hag _
              injection hpe with hpe'
              subst hpe'
              rw [hcv] at hcl
              injection hcl with hg
              subst hg
              rw [han] at hag
              exact absurd hag (by simp)
          | cons lf0 rest0 =>
            cases hag : agreement lf0 with
            | error e =>
              simp only [hag] at hps
              exact absurd hps (by simp)
            | ok q0 =>
              simp only [hag] at hps
              by_cases hq : q0 = 1
              · rw [if_pos hq] at hps
                injection hps with hps'
                subst hps'
                refine ⟨rfl, ?_, hloop, ?_, ?_, ?_, ?_⟩
                · intro hpe
                  injection hpe with hpe'
                  exact absurd hpe' hl
                · intro l hpe hcl
                  injection hpe with hpe'
                  subst hpe'
                  simp [hcv] at hcl
                · intro l hpe _ hcl
                  injection hpe with hpe'
                  subst hpe'
                  simp [hcv] at hcl
                · intro l g hpe hcl han'
                  injection hpe with hpe'
                  subst hpe'
                  rw [hcv] at hcl
                  injection hcl with hg
                  subst hg
                  rw [han] at han'
                  injection han' with hle
                  exact List.noConfusion hle
                · intro l g lf rest q hpe hcl han' hag'
                  injection hpe with hpe'
                  subst hpe'
                  rw [hcv] at hcl
                  injection hcl with hg
                  subst hg
                  rw [han] at han'
                  injection han' with hle
                  injection hle with hlf _
                  subst hlf
                  rw [hag] at hag'
                  injection hag' with hq'
                  subst hq'
                  exact ⟨fun _ => rfl, fun hqq => absurd hq hqq⟩
              · rw [if_neg hq] at hps
                injection hps with hps'
                subst hps'
                refine ⟨rfl, ?_, hloop, ?_, ?_, ?_, ?_⟩
                · intro hpe
                  injection hpe with hpe'
                  exact absurd hpe' hl
                · intro l hpe hcl
                  injection hpe with hpe'
                  subst hpe'
                  simp [hcv] at hcl
                · intro l hpe _ hcl
                  injection hpe with hpe'
                  subst hpe'
                  simp [hcv] at hcl
                · intro l g hpe hcl han'
                  injection hpe with hpe'
                  subst hpe'
                  rw [hcv] at hcl
                  injection hcl with hg
                  subst hg
                  rw [han] at han'
                  injection han' with hle
                  exact List.noConfusion hle
                · intro l g lf rest q hpe hcl han' hag'
                  injection hpe with hpe'
                  subst hpe'
                  rw [hcv] at hcl
                  injection hcl with hg
                  subst hg
                  rw [han] at han'
                  injection han' with hle
                  injection hle with hlf _
                  subst hlf
                  rw [hag] at hag'
                  injection hag' with hq'
                  subst hq'
                  exact ⟨fun hqq => absurd hqq hq, fun _ => rfl⟩

/-- Claim C3 witness: an empty candidate-parse list yields the ungrammatical
outcome with exactly one indicator set. -/
theorem C3_semparse_outcomes_witness :
    @semparse_evaluate Nat Nat Nat (Except.ok []) (fun _ => Except.ok none)
      (fun _ => Except.ok []) (fun _ => Except.ok 1) "w" =
      Except.ok ⟨Sum.inl "w", 0, 0, 0, 1⟩ ∧
    (⟨Sum.inl "w", 0, 0, 0, 1⟩ : ParseScore Nat).ungrammatical = 1 := by
  refine ⟨rfl, ?_⟩
  exact (@C3_semparse_outcomes Nat Nat Nat (Except.ok []) (fun _ => Except.ok none)
    (fun _ => Except.ok []) (fun _ => Except.ok 1) "w" ⟨Sum.inl "w", 0, 0, 0, 1⟩ rfl).2.1 rfl

/-- Claim C4 counterexample: a fault raised by stage 1 (the grammatical-parse
call) and a fault raised by stage 3 (the predicate analyzer) both propagate
out of semparse_evaluate instead of being mapped to a terminal outcome. -/
theorem C4_semparse_counterexample :
    @semparse_evaluate Nat Nat Nat (Except.error "ace fault") (fun _ => Except.ok none)
      (fun _ => Except.ok []) (fun _ => Except.ok 1) "c" = Except.error "ace fault" ∧
    @semparse_evaluate Nat Nat Nat (Except.ok [5]) (fun _ => Except.ok (some 7))
      (fun _ => Except.error "analyzer fault") (fun _ => Except.ok 1) "c" =
      Except.error "analyzer fault" :=
  ⟨rfl, rfl⟩

/-- Claim C4 (amended): only stage 2's semantic-graph conversion faults are
caught inside semparse_evaluate (mapped to out_of_scope); faults raised by
stage 1's parse call, stage 3's analyzer call or stage 4's scoring propagate
to the caller. Hence whenever the parse call succeeds and the analyzer and
scorer do not fault, the evaluator returns a ParseScore whatever the
conversion does, faults included. -/
theorem C4_conversion_faults_caught {M G L : Type} (l : List M)
    (convert : M → Except String (Option G)) (analyze : G → Except String (List L))
    (agreement : L → Except String Rat) (caption : String)
    (hana : ∀ g, (analyze g).isOk = true) (hagr : ∀ lf, (agreement lf).isOk = true) :
    (semparse_evaluate (Except.ok l) convert analyze agreement caption).isOk = true := by
  simp only [semparse_evaluate]
  cases l with
  | nil => rfl
  | cons m t =>
    simp only [List.isEmpty_cons, if_false, Bool.false_eq_true]
    cases hcv : convLoop convert (m :: t) with
    | raised => rfl
    | exhausted => rfl
    | found g =>
      cases han : analyze g with
      | error e =>
        have hh := hana g
        rw [han] at hh
        simp [Except.isOk, Except.toBool] at hh
      | ok lfs =>
        simp only [han]
        cases lfs with
        | nil => rfl
        | cons lf rest =>
          cases hag : agreement lf with
          | error e =>
            have hh := hagr lf
            rw [hag] at hh
            simp [Except.isOk, Except.toBool] at hh
          | ok q =>
            simp only [hag]
            by_cases hq : q = 1
            · rw [if_pos hq]
              rfl
            · rw [if_neg hq]
              rfl

/-- Claim C4 witness: with a conversion that always faults, a successful parse
and fault-free analyzer and scorer, the evaluator still returns a ParseScore. -/
theorem C4_conversion_faults_caught_witness :
    (@semparse_evaluate Nat Nat Nat (Except.ok [3]) (fun _ => Except.error "conversion fault")
      (fun _ => Except.ok [0]) (fun _ => Except.ok 1) "c").isOk = true := by
  exact C4_conversion_faults_caught [3] (fun _ => Except.error "conversion fault")
    (fun _ => Except.ok [0]) (fun _ => Except.ok 1) "c" (fun _ => rfl) (fun _ => rfl)

end Shape2Seq
